import Mathlib

/-!
Verification of the sales-forecast API pipeline.

Shallow embedding of the repository sources:
  app/services/preprocess.py  (detect_columns, normalize_schema,
                               aggregate_time_series, sanitize_outliers_and_missing,
                               _infer_by_gap)
  app/services/predictor.py   (EnsembleForecaster.fit_predict)
  app/services/pipeline.py    (PredictionPipeline.run, build_pipeline)
  app/routes.py               (predict)

Conventions of the embedding:
  * Calendar time is a natural number of days since 2024-01-01, which is a
    Monday.  Hence a day d is a Monday iff d % 7 = 0.
  * Numeric values are rationals.  The only place the source produces an
    irrational number is the RMSE square root; the model therefore stores the
    mean of squared errors (the RMSE squared) in the rmse slot.  Nullness and
    presence of the metric coincide with the source.
  * pandas / Prophet primitives used by the source are modelled explicitly:
    resample (full anchor grid between min and max label, empty buckets sum
    to 0), pd.infer_freq (raises for fewer than 3 timestamps, recognises a
    month-start grid and constant-gap grids), date_range, reindex, ffill,
    bfill, Series.quantile (linear interpolation), clip, and
    make_future_dataframe (periods strictly after the last history point on
    the same anchor).  The Prophet model itself is an external collaborator
    and is passed in as an oracle function from (training series, future
    timestamp) to (yhat, yhat_lower, yhat_upper).
-/

/-! ### Generic list helpers -/

/-- Minimum of a list of naturals, 0 for the empty list. -/
def minList : List Nat → Nat
  | [] => 0
  | x :: xs => xs.foldl min x

/-- Maximum of a list of naturals, 0 for the empty list. -/
def maxList : List Nat → Nat
  | [] => 0
  | x :: xs => xs.foldl max x

/-- Insert an element into a list sorted by a natural-number key. -/
def insertKey {α : Type} (f : α → Nat) (x : α) : List α → List α
  | [] => [x]
  | y :: ys => if f x ≤ f y then x :: y :: ys else y :: insertKey f x ys

/-- Sort a list ascending by a natural-number key (models sort_values("ds")). -/
def sortKey {α : Type} (f : α → Nat) (l : List α) : List α :=
  l.foldr (insertKey f) []

theorem mem_insertKey {α : Type} (f : α → Nat) (x a : α) (l : List α) :
    a ∈ insertKey f x l ↔ a = x ∨ a ∈ l := by
  induction l with
  | nil => simp [insertKey]
  | cons y ys ih =>
      unfold insertKey
      by_cases h : f x ≤ f y
      · rw [if_pos h]
        simp only [List.mem_cons]
      · rw [if_neg h]
        simp only [List.mem_cons, ih]
        tauto

theorem mem_sortKey {α : Type} (f : α → Nat) (a : α) (l : List α) :
    a ∈ sortKey f l ↔ a ∈ l := by
  induction l with
  | nil => simp [sortKey]
  | cons y ys ih =>
      simp only [sortKey, List.foldr_cons] at *
      rw [mem_insertKey]
      simp only [List.mem_cons]
      rw [ih]

/-- Insert a rational into a sorted list of rationals. -/
def insertQ (x : ℚ) : List ℚ → List ℚ
  | [] => [x]
  | y :: ys => if x ≤ y then x :: y :: ys else y :: insertQ x ys

/-- Sort a list of rationals ascending (used by quantile and median). -/
def sortQ (l : List ℚ) : List ℚ := l.foldr insertQ []

/-- Association lookup of a timestamp in a timestamped series. -/
def lookupDs (s : List (Nat × ℚ)) (d : Nat) : Option ℚ :=
  (s.find? (fun p => p.1 == d)).map (·.2)

/-- Lowercasing of a string (str.lower()).  Implemented over the character
list so that it evaluates inside the kernel. -/
def strLower (s : String) : String := ⟨s.data.map Char.toLower⟩

/-- Whitespace trimming of a string (str.strip()), likewise structural. -/
def strTrim (s : String) : String :=
  ⟨((s.data.dropWhile Char.isWhitespace).reverse.dropWhile Char.isWhitespace).reverse⟩

/-! ### Calendar: days since 2024-01-01 (a Monday) -/

/-- Gregorian leap-year test. -/
def isLeap (y : Nat) : Bool :=
  y % 4 == 0 && (y % 100 != 0 || y % 400 == 0)

/-- Number of days of month m (1..12) of year y. -/
def daysInMonth (y m : Nat) : Nat :=
  if m == 2 then (if isLeap y then 29 else 28)
  else if m == 4 || m == 6 || m == 9 || m == 11 then 30
  else 31

/-- Day number of the first day of the month with absolute index i
(index 0 = January 2024, the epoch month). -/
def monthStartOfIdx : Nat → Nat
  | 0 => 0
  | i + 1 => monthStartOfIdx i + daysInMonth (2024 + i / 12) (i % 12 + 1)

theorem daysInMonth_ge (y m : Nat) : 28 ≤ daysInMonth y m := by
  unfold daysInMonth
  split
  · split <;> omega
  · split <;> omega

theorem monthStartOfIdx_succ_ge (i : Nat) :
    monthStartOfIdx i + 28 ≤ monthStartOfIdx (i + 1) := by
  have := daysInMonth_ge (2024 + i / 12) (i % 12 + 1)
  simp only [monthStartOfIdx]
  omega

theorem monthStartOfIdx_strictMono : StrictMono monthStartOfIdx := by
  apply strictMono_nat_of_lt_succ
  intro n
  have := monthStartOfIdx_succ_ge n
  omega

theorem monthStartOfIdx_ge (i : Nat) : i ≤ monthStartOfIdx i := by
  induction i with
  | zero => simp [monthStartOfIdx]
  | succ n ih =>
      have := monthStartOfIdx_succ_ge n
      omega

/-- Auxiliary downward search: the largest index j ≤ k with month start ≤ d. -/
def mIdxDown (d : Nat) : Nat → Nat
  | 0 => 0
  | k + 1 => if monthStartOfIdx (k + 1) ≤ d then k + 1 else mIdxDown d k

/-- The absolute month index of the month containing day d. -/
def monthIdxOfDay (d : Nat) : Nat := mIdxDown d (d + 1)

theorem mIdxDown_spec (d a : Nat) : ∀ k, a ≤ k →
    monthStartOfIdx a ≤ d → (∀ j, a < j → j ≤ k → d < monthStartOfIdx j) →
    mIdxDown d k = a := by
  intro k
  induction k with
  | zero =>
      intro ha _ _
      simp only [mIdxDown]
      omega
  | succ n ih =>
      intro ha h1 h2
      rcases Nat.eq_or_lt_of_le ha with heq | hlt
      · simp only [mIdxDown, heq, if_pos (heq ▸ h1)]
      · have hgt : d < monthStartOfIdx (n + 1) := h2 (n + 1) hlt (le_refl _)
        have hstep : mIdxDown d (n + 1) = mIdxDown d n := by
          simp only [mIdxDown]
          rw [if_neg (by omega)]
        rw [hstep]
        exact ih (by omega) h1 (fun j hj1 hj2 => h2 j hj1 (by omega))

theorem monthIdxOfDay_monthStart (a : Nat) :
    monthIdxOfDay (monthStartOfIdx a) = a := by
  unfold monthIdxOfDay
  apply mIdxDown_spec
  · exact Nat.le_succ_of_le (monthStartOfIdx_ge a)
  · exact le_refl _
  · intro j hj _
    exact monthStartOfIdx_strictMono hj

/-- True iff day d is the first day of some month. -/
def isMonthStart (d : Nat) : Bool :=
  monthStartOfIdx (monthIdxOfDay d) == d

theorem isMonthStart_monthStartOfIdx (a : Nat) :
    isMonthStart (monthStartOfIdx a) = true := by
  simp [isMonthStart, monthIdxOfDay_monthStart]

/-- Render a day as an ISO calendar date string (YYYY-MM-DD). -/
def isoDate (d : Nat) : String :=
  let i := monthIdxOfDay d
  let y := 2024 + i / 12
  let m := i % 12 + 1
  let dayOfMonth := d - monthStartOfIdx i + 1
  let pad2 : Nat → String := fun n => if n < 10 then "0" ++ toString n else toString n
  toString y ++ "-" ++ pad2 m ++ "-" ++ pad2 dayOfMonth

/-! ### Scalar cells, rows, frames and JSON values

A scalar cell that pandas can parse as a datetime is modelled by the `cdate`
constructor carrying its parsed day index; pandas parsing of purely numeric
columns as epoch timestamps is outside the scope of every claim and is not
modelled. -/

inductive Cell where
  | cnull : Cell
  | cbool (b : Bool) : Cell
  | cnum (q : ℚ) : Cell
  | cstr (s : String) : Cell
  | cdate (d : Nat) : Cell
deriving DecidableEq, Repr

/-- A raw input record: an ordered mapping from column name to scalar value. -/
abbrev Row := List (String × Cell)

/-- A JSON value of the request body.  Arrays are specialised to the two
shapes the route reads: arrays of row objects (the data field) and arrays
of strings (the feature_columns field). -/
inductive JVal where
  | vnull : JVal
  | vbool (b : Bool) : JVal
  | vnum (q : ℚ) : JVal
  | vstr (s : String) : JVal
  | vrows (rs : List Row) : JVal
  | vstrs (ss : List String) : JVal
deriving DecidableEq, Repr

/-- Python truthiness of a JSON value. -/
def truthy : JVal → Bool
  | .vnull => false
  | .vbool b => b
  | .vnum q => q != 0
  | .vstr s => s != ""
  | .vrows rs => !rs.isEmpty
  | .vstrs ss => !ss.isEmpty

/-- A tabular frame: column names (in order) and the records. -/
structure Df where
  cols : List String
  rows : List Row
deriving DecidableEq, Repr

/-- Columns of pd.DataFrame.from_records: union of record keys in order of
first appearance; absent keys read as NaN. -/
def unionKeys (records : List Row) : List String :=
  records.foldl (fun acc r => acc ++ ((r.map (·.1)).filter (fun c => !acc.contains c))) []

def mkDf (records : List Row) : Df := ⟨unionKeys records, records⟩

/-- Read the cell of row r at column c; a missing key is NaN (null). -/
def getCell (r : Row) (c : String) : Cell :=
  ((r.find? (fun kv => kv.1 == c)).map (·.2)).getD .cnull

/-- Whether pd.to_datetime would accept this cell inside a whole-column parse
(NaN cells pass through as NaT without raising). -/
def cellParsesAsDate : Cell → Bool
  | .cdate _ => true
  | .cnull => true
  | _ => false

/-- pd.to_datetime(value, errors="coerce") on one cell: the parsed day or NaT. -/
def coerceDate : Cell → Option Nat
  | .cdate d => some d
  | _ => none

/-- Numeric reading of a target cell.  The source keeps any non-null target
value; every claim only exercises numeric targets, and non-numeric ones
(which would poison the numeric aggregation downstream in pandas) are read
as 0 here. -/
def numOf : Cell → ℚ
  | .cnum q => q
  | .cbool b => if b then 1 else 0
  | _ => 0

/-! ### Error taxonomy of the pipeline

Each constructor is one failure site of the source pipeline.  All of them
are raised as Python ValueError except `keyCollision`, which is the KeyError
raised when the detected date and target columns coincide and the rename
collapses them (out["ds"] then fails). -/

inductive PErr where
  | emptyData : PErr
  | columnNotFound : PErr
  | keyCollision : PErr
  | dupLabel : PErr
  | invalidAggLevel : PErr
  | freqInferError : PErr
  | insufficientData : PErr
deriving DecidableEq, Repr

/-- Which pipeline failures are Python ValueErrors (caught by the routes
handler that returns 422). -/
def PErr.isValueError : PErr → Bool
  | .keyCollision => false
  | _ => true

def PErr.msg : PErr → String
  | .emptyData => "Boş veri kümesi"
  | .columnNotFound => "Zorunlu kolon bulunamadı"
  | .keyCollision => "ds"
  | .dupLabel => "The column label is not unique"
  | .invalidAggLevel => "Geçersiz aggregation_level"
  | .freqInferError => "Need at least 3 dates to infer frequency"
  | .insufficientData => "Güvenilir tahmin için en az 30 veri noktası gereklidir."

/-! ### Column detection (preprocess.detect_columns) -/

def DATE_CANDIDATES : List String :=
  ["tarih", "date", "gun", "day", "zaman", "time"]

def TARGET_CANDIDATES : List String :=
  ["satis", "sales", "miktar", "quantity", "adet", "amount", "value", "satis_miktari"]

/-- lower_map lookup: the column whose lowercased name equals the alias.
The source builds a dict keyed by c.lower() over the columns in order, so a
later column with the same lowercased name overwrites an earlier one. -/
def lowerHit (df : Df) (al : String) : Option String :=
  (df.cols.filter (fun c => strLower c == al)).getLast?

/-- Whether every cell of column c parses as a datetime (pd.to_datetime(df[c])). -/
def colAllDates (df : Df) (c : String) : Bool :=
  df.rows.all (fun r => cellParsesAsDate (getCell r c))

/-- The find() closure of detect_columns: try aliases in priority order,
then (for the date role only) fall back to the first column that fully
parses as datetimes, else raise ValueError. -/
def findCol (df : Df) (isDate : Bool) : List String → Except PErr String
  | [] =>
      if isDate then
        match df.cols.find? (fun c => colAllDates df c) with
        | some c => .ok c
        | none => .error .columnNotFound
      else .error .columnNotFound
  | a :: rest =>
      match lowerHit df a with
      | some c => .ok c
      | none => findCol df isDate rest

structure Detected where
  date : String
  target : String
deriving DecidableEq, Repr

/-- preprocess.detect_columns. -/
def detect_columns (df : Df) : Except PErr Detected :=
  match findCol df true DATE_CANDIDATES with
  | .error e => .error e
  | .ok d =>
      match findCol df false TARGET_CANDIDATES with
      | .error e => .error e
      | .ok t => .ok ⟨d, t⟩

/-! Spec-side restatement of the claim C6 wording: the first alias (in
priority order) with a case-insensitive header match wins; if no date alias
matches, the first input column (in input order) whose every cell parses as
a timestamp is used; the target role has no fallback; failure of either
role is the ColumnNotFound condition. -/

def resolveColumnSpec (df : Df) (cands : List String) (dateFallback : Bool) :
    Option String :=
  match cands.find? (fun a => (lowerHit df a).isSome) with
  | some a => lowerHit df a
  | none =>
      if dateFallback then df.cols.find? (fun c => colAllDates df c)
      else none

def detect_columns_spec (df : Df) : Except PErr Detected :=
  match resolveColumnSpec df DATE_CANDIDATES true,
        resolveColumnSpec df TARGET_CANDIDATES false with
  | some d, some t => .ok ⟨d, t⟩
  | _, _ => .error .columnNotFound

/-! ### Schema normalisation (preprocess.normalize_schema) -/

/-- The normalised frame: canonical (ds, y) points plus the names of the
retained passthrough feature columns.  Feature values are carried no
further because the aggregation step of the source reads only the y
column. -/
structure NormedFrame where
  points : List (Nat × ℚ)
  kept : List String
deriving DecidableEq, Repr

/-- The column list after the rename {date: "ds", target: "y"}. -/
def renameCols (df : Df) (m : Detected) : List String :=
  df.cols.map (fun c => if c == m.date then "ds" else if c == m.target then "y" else c)

/-- The retained passthrough columns: requested and present after rename. -/
def keptOf (df : Df) (m : Detected) (feature_columns : List String) : List String :=
  feature_columns.filter (fun c => (renameCols df m).contains c)

/-- The canonical (ds, y) points: coerce ds, drop rows with missing ds or
y, sort ascending by ds.  Independent of the requested feature columns. -/
def normPoints (df : Df) (m : Detected) : List (Nat × ℚ) :=
  sortKey (·.1) (df.rows.filterMap (fun r =>
    match coerceDate (getCell r m.date) with
    | none => none
    | some d =>
        if getCell r m.target == .cnull then none
        else some (d, numOf (getCell r m.target))))

/-- preprocess.normalize_schema.  Renames the detected columns to ds / y,
coerces ds, drops rows with missing ds or y, retains requested-and-present
feature columns, sorts ascending by ds.

Two pandas failure modes are modelled as errors:
  * if the detected date and target columns coincide, the rename dict
    {date: "ds", target: "y"} collapses to one entry and out["ds"] raises
    KeyError;
  * if the retained feature list contains "ds", the later
    sort_values("ds") raises ValueError (duplicate column label). -/
def normalize_schema (df : Df) (m : Detected) (feature_columns : List String) :
    Except PErr NormedFrame :=
  if m.date == m.target then .error .keyCollision
  else if (keptOf df m feature_columns).contains "ds" then .error .dupLabel
  else .ok ⟨normPoints df m, keptOf df m feature_columns⟩

/-! ### Temporal aggregation (preprocess.aggregate_time_series) -/

/-- The W-MON bucket label of a day: resample("W-MON") bins days into
(monday - 7, monday] and labels each bin with its right edge, so the label
is the first Monday on or after the day. -/
def wlabel (d : Nat) : Nat := 7 * ((d + 6) / 7)

/-- The MS bucket label of a day: the first day of its month. -/
def mlabel (d : Nat) : Nat := monthStartOfIdx (monthIdxOfDay d)

/-- n consecutive W-MON grid points from lo. -/
def wGrid (lo n : Nat) : List Nat := (List.range n).map (fun i => lo + 7 * i)

/-- n consecutive month starts from absolute month index a. -/
def mGrid (a n : Nat) : List Nat := (List.range n).map (fun i => monthStartOfIdx (a + i))

/-- Sum of the y values falling into the bucket labelled g. -/
def sumAt (pts : List (Nat × ℚ)) (lbl : Nat → Nat) (g : Nat) : ℚ :=
  ((pts.filter (fun p => lbl p.1 == g)).map (·.2)).sum

/-- preprocess.aggregate_time_series.  Rejects any level outside
weekly/monthly, then resamples onto the full anchor grid between the labels
of the min and max timestamps, summing y per bucket (a period with no
points sums to 0, exactly as resample().sum() does).

One pandas failure mode is modelled as an error: if the retained feature
list contains "y", the selection out.set_index("ds")["y"] yields a frame
and the later two-name column assignment raises ValueError (length
mismatch). -/
def aggregate_time_series (nf : NormedFrame) (level : String) :
    Except PErr (List (Nat × ℚ)) :=
  if level != "weekly" && level != "monthly" then .error .invalidAggLevel
  else if nf.kept.contains "y" then .error .dupLabel
  else
    match nf.points with
    | [] => .ok []
    | _ :: _ =>
        if level == "weekly" then
          .ok ((wGrid (wlabel (minList (nf.points.map (·.1))))
              ((wlabel (maxList (nf.points.map (·.1)))
                - wlabel (minList (nf.points.map (·.1)))) / 7 + 1)).map
            (fun g => (g, sumAt nf.points wlabel g)))
        else
          .ok ((mGrid (monthIdxOfDay (minList (nf.points.map (·.1))))
              (monthIdxOfDay (maxList (nf.points.map (·.1))) + 1
                - monthIdxOfDay (minList (nf.points.map (·.1))))).map
            (fun g => (g, sumAt nf.points mlabel g)))

/-! ### Sanitiser (preprocess.sanitize_outliers_and_missing, _infer_by_gap) -/

/-- A pandas frequency rule as used by this pipeline: a constant step of k
days, the Monday-anchored weekly rule W-MON, or the month-start rule MS. -/
inductive FreqRule where
  | stepR (k : Nat) : FreqRule
  | wmonR : FreqRule
  | msR : FreqRule
deriving DecidableEq, Repr

/-- Successive gaps of a timestamp list. -/
def gapsOf : List Nat → List Nat
  | a :: b :: rest => (b - a) :: gapsOf (b :: rest)
  | _ => []

/-- Whether the timestamps are consecutive month starts. -/
def consecMS : List Nat → Bool
  | [] => true
  | [a] => isMonthStart a
  | a :: b :: rest =>
      isMonthStart a && (monthIdxOfDay b == monthIdxOfDay a + 1) && consecMS (b :: rest)

/-- pd.infer_freq: raises ValueError for fewer than 3 timestamps; recognises
a month-start grid as MS and a constant positive gap as a fixed-step rule
(for 7-day-spaced Mondays this is the same grid pandas labels W-MON);
returns none for irregular spacing. -/
def inferFreq (ds : List Nat) : Except Unit (Option FreqRule) :=
  if ds.length < 3 then .error ()
  else if consecMS ds then .ok (some .msR)
  else
    match gapsOf ds with
    | [] => .ok none
    | g :: gs =>
        if 0 < g ∧ gs.all (fun x => x == g) then .ok (some (.stepR g)) else .ok none

/-- Median of a list of rationals (pandas Series.median: middle element, or
the mean of the two middle elements for an even count). -/
def median (l : List ℚ) : ℚ :=
  let v := sortQ l
  let n := v.length
  if n == 0 then 0
  else if n % 2 == 1 then v.getD (n / 2) 0
  else (v.getD (n / 2 - 1) 0 + v.getD (n / 2) 0) / 2

/-- preprocess._infer_by_gap: median inter-point gap ≥ 25 days means MS;
otherwise W-MON (both the ≥ 6-day branch and the sub-weekly branch return
W-MON, since this API has no daily mode).  The source truncates the median
Timedelta to whole days before comparing. -/
def infer_by_gap (ds : List Nat) : FreqRule :=
  let deltas := gapsOf ds
  if deltas.isEmpty then .wmonR
  else
    let md : ℤ := (median (deltas.map (fun g => (g : ℚ)))).floor
    if 25 ≤ md then .msR else .wmonR

/-- Smallest absolute month index whose month start is ≥ lo. -/
def mIdxUp (lo : Nat) : Nat :=
  if isMonthStart lo then monthIdxOfDay lo else monthIdxOfDay lo + 1

/-- pd.date_range(start=lo, end=hi, freq=rule): all grid points of the rule
inside [lo, hi].  A fixed-step rule is anchored at lo; W-MON and MS are
anchored at the first Monday / month start on or after lo. -/
def dateRange (r : FreqRule) (lo hi : Nat) : List Nat :=
  match r with
  | .stepR k =>
      if k == 0 then [lo]
      else (List.range ((hi - lo) / k + 1)).map (fun i => lo + k * i)
  | .wmonR =>
      let first := lo + (7 - lo % 7) % 7
      if hi < first then []
      else (List.range ((hi - first) / 7 + 1)).map (fun i => first + 7 * i)
  | .msR =>
      let i0 := mIdxUp lo
      let i1 := monthIdxOfDay hi
      if i1 + 1 ≤ i0 then [] else mGrid i0 (i1 + 1 - i0)

/-- Forward fill: each missing value takes the last seen value. -/
def ffillAux (last : Option ℚ) : List (Option ℚ) → List (Option ℚ)
  | [] => []
  | x :: xs =>
      match x with
      | some v => some v :: ffillAux (some v) xs
      | none => last :: ffillAux last xs

def ffill (l : List (Option ℚ)) : List (Option ℚ) := ffillAux none l

/-- Backward fill: each missing value takes the next seen value. -/
def bfill (l : List (Option ℚ)) : List (Option ℚ) :=
  (ffillAux none l.reverse).reverse

/-- Series.quantile with the default linear interpolation. -/
def quantile (p : ℚ) (l : List ℚ) : ℚ :=
  let v := sortQ l
  let n := v.length
  if n == 0 then 0
  else
    let h : ℚ := p * ((n : ℚ) - 1)
    let i : Nat := h.floor.toNat
    let f : ℚ := h - (i : ℚ)
    let a := v.getD i 0
    let b := v.getD (min (i + 1) (n - 1)) 0
    a + f * (b - a)

/-- The IQR clipping pass: clip every value into
[Q1 - 1.5 IQR, Q3 + 1.5 IQR] computed over the list itself. -/
def clipIQR (ys : List ℚ) : List ℚ :=
  let q1 := quantile (1/4) ys
  let q3 := quantile (3/4) ys
  let iqr := q3 - q1
  let lower := q1 - 3/2 * iqr
  let upper := q3 + 3/2 * iqr
  ys.map (fun y => min (max y lower) upper)

/-- The reindex-fill-clip pass of the sanitiser for an already inferred
rule: reindex s onto the full rule grid between its min and max timestamp
(points off the grid are dropped, missing grid points become gaps),
forward- then backward-fill the gaps, and IQR-clip the values.

If every grid point were to miss every original timestamp the source series
would stay all-NaN through the fill and the quantiles would be NaN; that
path is unreachable from the pipeline (whose grids always contain their own
points) and outside every claim, and the model reads such a value as 0. -/
def reindexFill (rule : FreqRule) (s : List (Nat × ℚ)) : List (Nat × ℚ) :=
  (dateRange rule (minList (s.map (·.1))) (maxList (s.map (·.1)))).zip
    (clipIQR ((bfill (ffill ((dateRange rule (minList (s.map (·.1)))
        (maxList (s.map (·.1)))).map (fun g => lookupDs s g)))).map
      (fun o => o.getD 0)))

/-- preprocess.sanitize_outliers_and_missing: below 2 points the series is
returned unchanged; otherwise the frequency is inferred (pd.infer_freq,
which raises for fewer than 3 timestamps, falling back to the gap
heuristic when inference returns none), and the series is reindexed,
gap-filled and IQR-clipped. -/
def sanitize_outliers_and_missing (s : List (Nat × ℚ)) :
    Except PErr (List (Nat × ℚ)) :=
  if s.length < 2 then .ok s
  else
    match inferFreq (s.map (·.1)) with
    | .error _ => .error .freqInferError
    | .ok r0 => .ok (reindexFill (r0.getD (infer_by_gap (s.map (·.1)))) s)

/-! ### Forecaster (predictor.EnsembleForecaster)

The wrapped Prophet engine is an external collaborator: it is modelled as
an oracle mapping a training series and one future timestamp to the
predicted (yhat, yhat_lower, yhat_upper) triple.  Everything around it —
future-period generation on the shared anchor, the holdout backtest, the
inner join, the metric formulas, the summary dictionaries and the optional
dropping of the bound columns — is embedded from the source. -/

abbrev Oracle := List (Nat × ℚ) → Nat → ℚ × ℚ × ℚ

structure FRow where
  ds : Nat
  yhat : ℚ
  lo : ℚ
  hi : ℚ
deriving DecidableEq, Repr

/-- The forecast frame returned by fit_predict; hasBounds records whether
the yhat_lower / yhat_upper columns survived (they are dropped when
confidence bounds were not requested). -/
structure FOut where
  rows : List FRow
  hasBounds : Bool
deriving DecidableEq, Repr

/-- model_info of the source.  accuracy_rmse stores the squared RMSE (the
mean of squared errors): ℚ has no square root, and only nullness and
presence of the metric are ever claimed. -/
structure ModelInfo where
  algorithm : String
  accuracy_mae : Option ℚ
  accuracy_rmse : Option ℚ
  accuracy_mape : Option ℚ
  backtest_points : Nat
deriving DecidableEq, Repr

structure DataSummary where
  input_rows : Nat
  date_range : String
  features_used : List String
deriving DecidableEq, Repr

/-- make_future_dataframe(periods=h, freq=rule, include_history=False):
h grid periods strictly after the last history timestamp, on the same
anchor (next Mondays for W-MON, next month starts for MS). -/
def futureDates (monthly : Bool) (last h : Nat) : List Nat :=
  if monthly then
    (List.range h).map (fun i => monthStartOfIdx (monthIdxOfDay last + 1 + i))
  else
    (List.range h).map (fun i => (last + 7 - last % 7) + 7 * i)

structure EnsembleForecaster where
  frequency : String
  horizon : Nat
  return_confidence : Bool := false
deriving DecidableEq, Repr

/-- _freq_rule: MS for monthly, W-MON otherwise. -/
def EnsembleForecaster.monthlyRule (self : EnsembleForecaster) : Bool :=
  self.frequency == "monthly"

/-- The backtest block of fit_predict: hold out the last nv points, fit a
second model instance on the remaining head (the oracle sees only the
training series), predict nv future periods from the end of that head,
inner-join the held-out truth with the backtest forecast on the timestamp,
and from the overlap (when it has at least 2 points) compute MAE, squared
RMSE and MAPE (MAPE over the rows with non-zero truth, null when there is
none). -/
def backtestJoin (oracle : Oracle) (monthly : Bool) (df : List (Nat × ℚ)) (nv : Nat) :
    Option ℚ × Option ℚ × Option ℚ :=
  let train := df.take (df.length - nv)
  let val := df.drop (df.length - nv)
  let btFut := futureDates monthly (maxList (train.map (·.1))) nv
  let btRows := btFut.map (fun d => (d, (oracle train d).1))
  let merged := val.filterMap (fun p =>
    (btRows.find? (fun b => b.1 == p.1)).map (fun b => (p.2, b.2)))
  if 2 ≤ merged.length then
    let mlen : ℚ := (merged.length : ℚ)
    let mae := (merged.map (fun ab => |ab.1 - ab.2|)).sum / mlen
    let rmseSq := (merged.map (fun ab => (ab.1 - ab.2) ^ 2)).sum / mlen
    let nz := merged.filter (fun ab => ab.1 != 0)
    let mape :=
      if nz.isEmpty then none
      else some ((nz.map (fun ab => |ab.1 - ab.2| / ab.1)).sum / (nz.length : ℚ) * 100)
    (some mae, some rmseSq, mape)
  else (none, none, none)

/-- predictor.EnsembleForecaster.fit_predict. -/
def EnsembleForecaster.fit_predict (self : EnsembleForecaster) (oracle : Oracle)
    (df : List (Nat × ℚ)) : FOut × ModelInfo × DataSummary :=
  let monthly := self.monthlyRule
  let ds := df.map (·.1)
  let fut := futureDates monthly (maxList ds) self.horizon
  let rows := fut.map (fun d =>
    let p := oracle df d
    ⟨d, p.1, p.2.1, p.2.2⟩)
  let L := df.length
  let n_val := max 0 (min (max 4 self.horizon) (max 2 (L / 3)))
  let metrics : Option ℚ × Option ℚ × Option ℚ :=
    if n_val + 5 ≤ L ∧ 2 ≤ n_val then backtestJoin oracle monthly df n_val
    else (none, none, none)
  let mi : ModelInfo :=
    ⟨"Ensemble (Prophet)", metrics.1, metrics.2.1, metrics.2.2, n_val⟩
  let dsum : DataSummary :=
    ⟨L, isoDate (minList ds) ++ " to " ++ isoDate (maxList ds),
     ["trend", "weekly_seasonality", "yearly_seasonality"]⟩
  (⟨sortKey (·.ds) rows, self.return_confidence⟩, mi, dsum)

/-! ### Pipeline orchestrator (pipeline.PredictionPipeline) -/

structure PredictionPipeline where
  prediction_frequency : String
  aggregation_level : String
  prediction_period : Nat
  feature_columns : List String
  return_confidence : Bool
  min_data_points : Nat
  non_negative : Bool := true
deriving DecidableEq, Repr

/-- One output prediction row.  The confidence fields distinguish an absent
key (none) from a key present with a JSON null (some none). -/
structure PredItem where
  date : String
  predicted_value : ℚ
  confidence_lower : Option (Option ℚ)
  confidence_upper : Option (Option ℚ)
deriving DecidableEq, Repr

structure PipelineResult where
  success : Bool
  data_summary : DataSummary
  predictions : List PredItem
  model_info : ModelInfo
deriving DecidableEq, Repr

/-- Substring matcher: does the haystack start with the needle? -/
def leadsWith : List Char → List Char → Bool
  | [], _ => true
  | _ :: _, [] => false
  | a :: as, b :: bs => a == b && leadsWith as bs

/-- Substring matcher: does sub occur anywhere inside hay? -/
def containsSubAux (sub : List Char) : List Char → Bool
  | [] => leadsWith sub []
  | a :: rest => leadsWith sub (a :: rest) || containsSubAux sub rest

def containsSub (hay sub : String) : Bool :=
  containsSubAux sub.data hay.data

/-- Step 8 of pipeline.run: empty labels default to Prophet, and an
"Ensemble" label without an xgboost contribution is squashed to Prophet. -/
def normalizeAlgo (a : String) : String :=
  let algo := if a == "" then "Prophet" else a
  if leadsWith "ensemble".data (strLower (strTrim algo)).data
      && !(containsSub (strLower algo) "xgboost")
  then "Prophet" else algo

/-- Steps 1 to 4 of pipeline.run: frame construction, column detection,
normalisation, aggregation, sanitisation and the post-aggregation minimum
check.  Every pipeline failure happens inside this stage, before the
Forecaster is ever invoked. -/
def PredictionPipeline.aggSeries (cfg : PredictionPipeline) (records : List Row) :
    Except PErr (List (Nat × ℚ)) :=
  if (mkDf records).rows.isEmpty || (mkDf records).cols.isEmpty then .error .emptyData
  else
    match detect_columns (mkDf records) with
    | .error e => .error e
    | .ok m =>
        match normalize_schema (mkDf records) m cfg.feature_columns with
        | .error e => .error e
        | .ok nf => aggregate_time_series nf cfg.aggregation_level

def PredictionPipeline.cleanSeries (cfg : PredictionPipeline) (records : List Row) :
    Except PErr (List (Nat × ℚ)) :=
  match cfg.aggSeries records with
  | .error e => .error e
  | .ok agg =>
      match sanitize_outliers_and_missing agg with
      | .error e => .error e
      | .ok clean =>
          if clean.length < cfg.min_data_points then .error .insufficientData
          else .ok clean

/-- Steps 5 to 8 of pipeline.run: forecast, summary normalisation (the
forecaster summary always carries input_rows, date_range and a non-empty
features_used, so the fallback branches of the source are inert and the
summary passes through), prediction normalisation (sort by date, ISO
rendering, independent flooring at zero of the point estimate and of each
bound when non-negative mode is on, bound keys only when confidence was
requested and the columns survived), and the algorithm-label squash. -/
def PredictionPipeline.finish (cfg : PredictionPipeline) (oracle : Oracle)
    (clean : List (Nat × ℚ)) : PipelineResult :=
  let forecaster : EnsembleForecaster :=
    ⟨cfg.prediction_frequency, cfg.prediction_period, cfg.return_confidence⟩
  let fmd := forecaster.fit_predict oracle clean
  let fc := fmd.1
  let mi0 := fmd.2.1
  let dsum := fmd.2.2
  let preds := fc.rows.map (fun row =>
    let yhat := if cfg.non_negative then max 0 row.yhat else row.yhat
    let lo := if cfg.non_negative then max 0 row.lo else row.lo
    let hi := if cfg.non_negative then max 0 row.hi else row.hi
    { date := isoDate row.ds
      predicted_value := yhat
      confidence_lower :=
        if cfg.return_confidence && fc.hasBounds then some (some lo) else none
      confidence_upper :=
        if cfg.return_confidence && fc.hasBounds then some (some hi) else none
      : PredItem })
  { success := true
    data_summary := dsum
    predictions := preds
    model_info := { mi0 with algorithm := normalizeAlgo mi0.algorithm } }

/-- pipeline.PredictionPipeline.run. -/
def PredictionPipeline.run (cfg : PredictionPipeline) (oracle : Oracle)
    (records : List Row) : Except PErr PipelineResult :=
  match cfg.cleanSeries records with
  | .error e => .error e
  | .ok clean => .ok (cfg.finish oracle clean)

/-- pipeline.build_pipeline. -/
def build_pipeline (prediction_frequency aggregation_level : String)
    (prediction_period : Nat) (feature_columns : Option (List String))
    (return_confidence : Bool) (min_data_points : Nat) : PredictionPipeline :=
  { prediction_frequency := prediction_frequency
    aggregation_level := aggregation_level
    prediction_period := prediction_period
    feature_columns := feature_columns.getD []
    return_confidence := return_confidence
    min_data_points := min_data_points
    non_negative := true }

/-! ### Request dispatcher (routes.predict) -/

inductive Resp where
  | badRequest (code msg : String) : Resp
  | unprocessable (code msg : String) : Resp
  | serverError (code msg : String) : Resp
  | okResult (r : PipelineResult) : Resp
  | okAsync (callbackVal : JVal) : Resp
deriving DecidableEq, Repr

structure ReqParams where
  data : List Row
  prediction_period : Nat
  prediction_frequency : String
  feature_columns : List String
  confidence_interval : Bool
deriving DecidableEq, Repr

def lookupKey (payload : List (String × JVal)) (k : String) : Option JVal :=
  (payload.find? (fun kv => kv.1 == k)).map (·.2)

/-- The validation block of routes.predict: data must be a non-empty list
of records, prediction_period a positive integer, prediction_frequency one
of weekly/monthly; feature_columns defaults to [] and confidence_interval
is the truthiness of its value. -/
def parseParams (payload : List (String × JVal)) : Except Resp ReqParams :=
  match lookupKey payload "data" with
  | some (.vrows rs) =>
      if rs.isEmpty then
        .error (.badRequest "missing_parameter" "'data' zorunludur ve boş olmamalıdır.")
      else
        match lookupKey payload "prediction_period" with
        | some (.vnum q) =>
            if q.den = 1 ∧ 0 < q.num then
              match lookupKey payload "prediction_frequency" with
              | some (.vstr s) =>
                  if s == "weekly" || s == "monthly" then
                    let fcols :=
                      match lookupKey payload "feature_columns" with
                      | some (.vstrs ss) => ss
                      | _ => []
                    let conf := truthy ((lookupKey payload "confidence_interval").getD .vnull)
                    .ok ⟨rs, q.num.toNat, s, fcols, conf⟩
                  else .error (.badRequest "missing_parameter"
                    "'prediction_frequency' zorunludur ve 'weekly'/'monthly' olmalıdır.")
              | _ => .error (.badRequest "missing_parameter"
                  "'prediction_frequency' zorunludur ve 'weekly'/'monthly' olmalıdır.")
            else .error (.badRequest "missing_parameter"
              "'prediction_period' zorunludur ve pozitif bir sayı olmalıdır.")
        | _ => .error (.badRequest "missing_parameter"
            "'prediction_period' zorunludur ve pozitif bir sayı olmalıdır.")
  | _ => .error (.badRequest "missing_parameter" "'data' zorunludur ve boş olmamalıdır.")

/-- The callback-indicator synonym keys of routes.predict. -/
def callbackKeys : List String := ["callback", "webhook", "notify", "async", "background"]

/-- The synchronous branch of routes.predict: build the pipeline with
aggregation_level set to the prediction frequency and min points from
configuration, run it, map ValueError to 422 insufficient_data and any
other exception to 500 internal_error. -/
def runSync (oracle : Oracle) (minPts : Nat) (p : ReqParams) : Resp :=
  match (build_pipeline p.prediction_frequency p.prediction_frequency
      p.prediction_period (some p.feature_columns) p.confidence_interval minPts).run
      oracle p.data with
  | .ok r => .okResult r
  | .error e =>
      if e.isValueError then .unprocessable "insufficient_data" e.msg
      else .serverError "internal_error" e.msg

/-- routes.predict (the request id of the acknowledgment comes from the
wall clock and is not modelled; the acknowledgment carries the callback
value).  The callback scan takes the first payload key, in insertion
order, whose lowercased name is a callback synonym, and the asynchronous
branch is entered only when that value is truthy. -/
def predict (oracle : Oracle) (minPts : Nat) (payload : List (String × JVal)) : Resp :=
  match parseParams payload with
  | .error r => r
  | .ok p =>
      match payload.find? (fun kv => callbackKeys.contains (strLower kv.1)) with
      | some kv => if truthy kv.2 then .okAsync kv.2 else runSync oracle minPts p
      | none => runSync oracle minPts p

/-- Decidable equality of Except values, used to settle concrete pipeline
runs by evaluation. -/
instance {ε α : Type} [DecidableEq ε] [DecidableEq α] : DecidableEq (Except ε α) := fun
  | .error e, .error f =>
      if h : e = f then isTrue (h ▸ rfl) else isFalse (fun c => h (Except.error.inj c))
  | .error _, .ok _ => isFalse Except.noConfusion
  | .ok _, .error _ => isFalse Except.noConfusion
  | .ok a, .ok b =>
      if h : a = b then isTrue (h ▸ rfl) else isFalse (fun c => h (Except.ok.inj c))

/-! ### Concrete inputs used by witnesses and counterexamples -/

/-- A deterministic stand-in for the Prophet engine that forecasts a
negative point estimate with a negative lower bound. -/
def exOracle : Oracle := fun _ _ => (-5, -2, 3)

/-- Four raw records over three weekly buckets (two records share the
Monday 2024-01-01 bucket). -/
def exRecs : List Row :=
  [[("date", .cdate 0), ("sales", .cnum 1)],
   [("date", .cdate 0), ("sales", .cnum 2)],
   [("date", .cdate 7), ("sales", .cnum 3)],
   [("date", .cdate 14), ("sales", .cnum 4)]]

/-- Two raw records on consecutive Mondays: exactly two aggregated buckets. -/
def exRecs2 : List Row :=
  [[("date", .cdate 0), ("sales", .cnum 5)],
   [("date", .cdate 7), ("sales", .cnum 7)]]

/-- Three raw daily records inside one week: one aggregated bucket. -/
def exRecs3daily : List Row :=
  [[("date", .cdate 1), ("sales", .cnum 5)],
   [("date", .cdate 2), ("sales", .cnum 6)],
   [("date", .cdate 3), ("sales", .cnum 7)]]

/-- Weekly pipeline, horizon 2, no confidence, permissive minimum of 3. -/
def exCfg : PredictionPipeline := build_pipeline "weekly" "weekly" 2 (some []) false 3

/-- Same pipeline with confidence bounds requested. -/
def exCfgConf : PredictionPipeline := build_pipeline "weekly" "weekly" 2 (some []) true 3

/-- Weekly pipeline with the production default minimum of 30. -/
def exCfg30 : PredictionPipeline := build_pipeline "weekly" "weekly" 4 (some []) false 30

/-- The clean series the pipeline computes from exRecs. -/
def exClean : List (Nat × ℚ) := [(0, 3), (7, 3), (14, 4)]

/-- A request body whose data rows have a parseable date column but no
resolvable target column. -/
def exPayloadNoTarget : List (String × JVal) :=
  [("data", .vrows [[("date", .cdate 0)]]),
   ("prediction_period", .vnum 4),
   ("prediction_frequency", .vstr "weekly")]

/-- A valid request carrying a truthy webhook key followed by a falsy
async key. -/
def exPayloadCb : List (String × JVal) :=
  [("data", .vrows exRecs),
   ("prediction_period", .vnum 4),
   ("prediction_frequency", .vstr "weekly"),
   ("webhook", .vstr "http-example"),
   ("async", .vbool false)]

/-- A valid request whose only callback-indicator key is falsy. -/
def exPayloadFalsyCb : List (String × JVal) :=
  [("data", .vrows exRecs),
   ("prediction_period", .vnum 4),
   ("prediction_frequency", .vstr "weekly"),
   ("async", .vbool false)]

/-- The parameters parseParams extracts from exPayloadFalsyCb. -/
def exParamsFalsyCb : ReqParams := ⟨exRecs, 4, "weekly", [], false⟩

/-- The aggregated-then-clipped 4-bucket weekly series of the C4
counterexample after one sanitiser pass. -/
def exS4 : List (Nat × ℚ) := [(0, 0), (7, 100), (14, 100), (21, 100)]

def exS4Clip : List (Nat × ℚ) := [(0, 75/2), (7, 100), (14, 100), (21, 100)]

def exS4Clip2 : List (Nat × ℚ) := [(0, 975/16), (7, 100), (14, 100), (21, 100)]

/-! ### C1: dispatcher mapping of ColumnNotFound / InvalidAggregationLevel -/

/-- C1 (amended): a synchronous pipeline failure with ColumnNotFound or
InvalidAggregationLevel is returned by the dispatcher as the HTTP 422
unprocessable response with error code insufficient_data — both conditions
are ValueErrors, so the ValueError handler of the route claims them before
the generic 500 handler; only non-ValueError failures reach the 500
internal-error branch. -/
theorem c1_error_mapping (oracle : Oracle) (minPts : Nat)
    (payload : List (String × JVal)) (p : ReqParams) (e : PErr)
    (hp : parseParams payload = .ok p)
    (hcb : payload.find? (fun kv => callbackKeys.contains (strLower kv.1)) = none)
    (herr : (build_pipeline p.prediction_frequency p.prediction_frequency
        p.prediction_period (some p.feature_columns) p.confidence_interval minPts).run
        oracle p.data = .error e)
    (he : e = .columnNotFound ∨ e = .invalidAggLevel) :
    predict oracle minPts payload = .unprocessable "insufficient_data" e.msg := by
  have hve : e.isValueError = true := by
    rcases he with h | h <;> subst h <;> rfl
  unfold predict
  rw [hp, hcb]
  show runSync oracle minPts p = Resp.unprocessable "insufficient_data" e.msg
  unfold runSync
  rw [herr]
  show (if e.isValueError = true then Resp.unprocessable "insufficient_data" e.msg
      else Resp.serverError "internal_error" e.msg) = _
  rw [hve]
  simp

/-- C1 (counterexample to the claim as stated): a request whose data rows
have no resolvable target column fails with ColumnNotFound inside the
pipeline, and the dispatcher answers with the 422 unprocessable client
error tagged insufficient_data — not with a 500-class internal error. -/
theorem c1_counterexample :
    (build_pipeline "weekly" "weekly" 4 (some []) false 30).run exOracle
        [[("date", .cdate 0)]] = .error .columnNotFound ∧
    predict exOracle 30 exPayloadNoTarget =
      .unprocessable "insufficient_data" "Zorunlu kolon bulunamadı" ∧
    ∀ c m, predict exOracle 30 exPayloadNoTarget ≠ Resp.serverError c m := by
  refine ⟨by decide, by decide, ?_⟩
  intro c m h
  have : predict exOracle 30 exPayloadNoTarget =
      .unprocessable "insufficient_data" "Zorunlu kolon bulunamadı" := by decide
  rw [this] at h
  exact Resp.noConfusion h

/-- C1 (witness): the amended theorem applied to the concrete
no-target-column request. -/
theorem c1_witness :
    predict exOracle 30 exPayloadNoTarget =
      .unprocessable "insufficient_data" PErr.columnNotFound.msg :=
  c1_error_mapping exOracle 30 exPayloadNoTarget
    ⟨[[("date", .cdate 0)]], 4, "weekly", [], false⟩ .columnNotFound
    (by decide) (by decide) (by decide) (Or.inl rfl)

/-! ### C10: callback-indicator dispatch -/

/-- C10 (amended): the dispatch decision looks only at the first payload
key, in key order, whose lowercased name is a callback synonym.  If there
is no such key, or its value is falsy, the request is processed
synchronously; the asynchronous acknowledgment path is entered exactly
when that first indicator value is truthy (a falsy first indicator
shadows any later truthy one). -/
theorem c10_callback_dispatch (oracle : Oracle) (minPts : Nat)
    (payload : List (String × JVal)) (p : ReqParams)
    (hp : parseParams payload = .ok p) :
    (payload.find? (fun kv => callbackKeys.contains (strLower kv.1)) = none →
      predict oracle minPts payload = runSync oracle minPts p) ∧
    (∀ kv, payload.find? (fun kv => callbackKeys.contains (strLower kv.1)) = some kv →
      truthy kv.2 = false → predict oracle minPts payload = runSync oracle minPts p) ∧
    (∀ kv, payload.find? (fun kv => callbackKeys.contains (strLower kv.1)) = some kv →
      truthy kv.2 = true → predict oracle minPts payload = .okAsync kv.2) := by
  refine ⟨?_, ?_, ?_⟩
  · intro h
    unfold predict
    rw [hp, h]
  · intro kv h ht
    unfold predict
    rw [hp, h]
    show (if truthy kv.2 = true then Resp.okAsync kv.2 else runSync oracle minPts p) = _
    rw [ht]
    simp
  · intro kv h ht
    unfold predict
    rw [hp, h]
    show (if truthy kv.2 = true then Resp.okAsync kv.2 else runSync oracle minPts p) = _
    rw [ht]
    simp

/-- C10 (counterexample to the claim as stated): this request contains the
callback-indicator key "async" with the falsy value false, yet it is NOT
processed synchronously — the earlier truthy "webhook" key wins the scan
and the request is acknowledged asynchronously. -/
theorem c10_counterexample :
    ("async", JVal.vbool false) ∈ exPayloadCb ∧
    truthy (JVal.vbool false) = false ∧
    predict exOracle 30 exPayloadCb = .okAsync (.vstr "http-example") := by
  decide

/-- C10 (witness): the amended theorem applied to a request whose only
(and hence first) indicator key is falsy: it runs synchronously. -/
theorem c10_witness :
    predict exOracle 30 exPayloadFalsyCb = runSync exOracle 30 exParamsFalsyCb :=
  (c10_callback_dispatch exOracle 30 exPayloadFalsyCb exParamsFalsyCb (by decide)).2.1
    ("async", JVal.vbool false) (by decide) (by decide)

/-! ### C5: non-negative output mode -/

/-- C5: when non-negative mode is enabled, every prediction of a
successful run has a non-negative point estimate, and every confidence
bound that is present in the payload is independently non-negative (each
bound is floored at zero separately; no lower-vs-upper ordering is
re-established afterwards). -/
theorem c5_nonneg (oracle : Oracle) (cfg : PredictionPipeline) (records : List Row)
    (r : PipelineResult) (hnn : cfg.non_negative = true)
    (hr : cfg.run oracle records = .ok r) :
    ∀ p ∈ r.predictions, 0 ≤ p.predicted_value ∧
      (∀ q, p.confidence_lower = some (some q) → 0 ≤ q) ∧
      (∀ q, p.confidence_upper = some (some q) → 0 ≤ q) := by
  unfold PredictionPipeline.run at hr
  cases hc : cfg.cleanSeries records with
  | error e => rw [hc] at hr; exact absurd hr (by simp)
  | ok clean =>
      rw [hc] at hr
      have hr' : r = cfg.finish oracle clean := by
        injection hr with h
        exact h.symm
      subst hr'
      intro p hp
      simp only [PredictionPipeline.finish] at hp
      rw [List.mem_map] at hp
      obtain ⟨row, _, rfl⟩ := hp
      refine ⟨?_, ?_, ?_⟩
      · show 0 ≤ (if cfg.non_negative then max 0 row.yhat else row.yhat)
        rw [hnn]
        simp
      · intro q hq
        show 0 ≤ q
        by_cases hb : (cfg.return_confidence &&
            ((⟨cfg.prediction_frequency, cfg.prediction_period,
              cfg.return_confidence⟩ : EnsembleForecaster).fit_predict oracle clean).1.hasBounds) = true
        · simp only [hb, if_true] at hq
          have hq' : (if cfg.non_negative then max 0 row.lo else row.lo) = q := by
            injection hq with h1
            injection h1
          rw [hnn] at hq'
          simp only [if_true] at hq'
          rw [← hq']
          simp
        · simp only [hb] at hq
          simp at hq
      · intro q hq
        show 0 ≤ q
        by_cases hb : (cfg.return_confidence &&
            ((⟨cfg.prediction_frequency, cfg.prediction_period,
              cfg.return_confidence⟩ : EnsembleForecaster).fit_predict oracle clean).1.hasBounds) = true
        · simp only [hb, if_true] at hq
          have hq' : (if cfg.non_negative then max 0 row.hi else row.hi) = q := by
            injection hq with h1
            injection h1
          rw [hnn] at hq'
          simp only [if_true] at hq'
          rw [← hq']
          simp
        · simp only [hb] at hq
          simp at hq

/-- C5 (witness): the theorem applied to a concrete run whose engine
forecasts a negative point estimate and a negative lower bound. -/
theorem c5_witness :
    0 ≤ ((exCfgConf.finish exOracle exClean).predictions.headD
        ⟨"", 0, none, none⟩).predicted_value :=
  (c5_nonneg exOracle exCfgConf exRecs (exCfgConf.finish exOracle exClean)
    rfl (by decide) _ (by decide)).1

/-! ### C8: bound keys absent when confidence is not requested -/

/-- C8: when confidence bounds are not requested, every prediction row of a
successful run carries no confidence_lower and no confidence_upper key at
all (the fields are absent, not null-valued). -/
theorem c8_bounds_absent (oracle : Oracle) (cfg : PredictionPipeline) (records : List Row)
    (r : PipelineResult) (hconf : cfg.return_confidence = false)
    (hr : cfg.run oracle records = .ok r) :
    ∀ p ∈ r.predictions, p.confidence_lower = none ∧ p.confidence_upper = none := by
  unfold PredictionPipeline.run at hr
  cases hc : cfg.cleanSeries records with
  | error e => rw [hc] at hr; exact absurd hr (by simp)
  | ok clean =>
      rw [hc] at hr
      have hr' : r = cfg.finish oracle clean := by
        injection hr with h
        exact h.symm
      subst hr'
      intro p hp
      simp only [PredictionPipeline.finish] at hp
      rw [List.mem_map] at hp
      obtain ⟨row, _, rfl⟩ := hp
      constructor
      · show (if (cfg.return_confidence && _) = true then _ else none) = none
        rw [hconf]
        simp
      · show (if (cfg.return_confidence && _) = true then _ else none) = none
        rw [hconf]
        simp

/-- C8 (witness): the theorem applied to a concrete run without
confidence bounds. -/
theorem c8_witness :
    ((exCfg.finish exOracle exClean).predictions.headD
        ⟨"", 0, none, none⟩).confidence_lower = none :=
  (c8_bounds_absent exOracle exCfg exRecs (exCfg.finish exOracle exClean)
    rfl (by decide) _ (by decide)).1

/-! ### C3: backtest holdout size and preconditions -/

/-- Standard clamp: x limited below by lo and above by hi. -/
def clamp (x lo hi : Nat) : Nat := max lo (min x hi)

/-- A 9-point weekly clean series and a horizon-4 forecaster for the C3
witness. -/
def exF : EnsembleForecaster := ⟨"weekly", 4, false⟩

def exDf9 : List (Nat × ℚ) :=
  [(0, 1), (7, 2), (14, 3), (21, 4), (28, 5), (35, 6), (42, 7), (49, 8), (56, 9)]

/-- C3: the holdout size reported as backtest_points equals
clamp(max(4, horizon), 2, floor(L/3)); this size is always at least 2, so
the backtest runs exactly when L ≥ n_val + 5; when that precondition
fails, MAE, RMSE and MAPE are all null while backtest_points still carries
the computed n_val; and when it holds, the three metrics are exactly those
of the prefix-train / tail-holdout / inner-join backtest. -/
theorem c3_backtest (oracle : Oracle) (f : EnsembleForecaster) (df : List (Nat × ℚ)) :
    (f.fit_predict oracle df).2.1.backtest_points
      = clamp (max 4 f.horizon) 2 (df.length / 3) ∧
    2 ≤ clamp (max 4 f.horizon) 2 (df.length / 3) ∧
    (¬ (clamp (max 4 f.horizon) 2 (df.length / 3) + 5 ≤ df.length) →
      (f.fit_predict oracle df).2.1.accuracy_mae = none ∧
      (f.fit_predict oracle df).2.1.accuracy_rmse = none ∧
      (f.fit_predict oracle df).2.1.accuracy_mape = none) ∧
    (clamp (max 4 f.horizon) 2 (df.length / 3) + 5 ≤ df.length →
      ((f.fit_predict oracle df).2.1.accuracy_mae,
       (f.fit_predict oracle df).2.1.accuracy_rmse,
       (f.fit_predict oracle df).2.1.accuracy_mape)
        = backtestJoin oracle f.monthlyRule df
            (clamp (max 4 f.horizon) 2 (df.length / 3))) := by
  have hnv : max 0 (min (max 4 f.horizon) (max 2 (df.length / 3)))
      = clamp (max 4 f.horizon) 2 (df.length / 3) := by
    unfold clamp
    omega
  have h2 : 2 ≤ clamp (max 4 f.horizon) 2 (df.length / 3) := by
    unfold clamp
    omega
  refine ⟨?_, h2, ?_, ?_⟩
  · show (f.fit_predict oracle df).2.1.backtest_points = _
    simp only [EnsembleForecaster.fit_predict]
    exact hnv
  · intro h
    simp only [EnsembleForecaster.fit_predict, hnv]
    rw [if_neg (fun hc => h hc.1)]
    exact ⟨rfl, rfl, rfl⟩
  · intro h
    simp only [EnsembleForecaster.fit_predict, hnv]
    rw [if_pos ⟨h, h2⟩]

/-- C3 (witness): on a 9-point series with horizon 4 the reported holdout
size is clamp(max(4,4), 2, 3) = 3. -/
theorem c3_witness : (exF.fit_predict exOracle exDf9).2.1.backtest_points = 3 :=
  (c3_backtest exOracle exF exDf9).1.trans (by decide)

/-! ### C6: column detection resolution order -/

theorem findCol_eq (df : Df) (isDate : Bool) :
    ∀ cands, findCol df isDate cands =
      match resolveColumnSpec df cands isDate with
      | some c => .ok c
      | none => .error .columnNotFound := by
  intro cands
  induction cands with
  | nil =>
      unfold findCol resolveColumnSpec
      cases isDate
      · rfl
      · show (match df.cols.find? (fun c => colAllDates df c) with
          | some c => Except.ok c
          | none => Except.error PErr.columnNotFound) = _
        cases df.cols.find? (fun c => colAllDates df c) <;> rfl
  | cons a rest ih =>
      unfold findCol
      cases hl : lowerHit df a with
      | some c =>
          unfold resolveColumnSpec
          rw [List.find?_cons_of_pos]
          · simp [hl]
          · show (lowerHit df a).isSome = true
            rw [hl]
            rfl
      | none =>
          unfold resolveColumnSpec
          rw [List.find?_cons_of_neg]
          · exact ih
          · show ¬ ((lowerHit df a).isSome = true)
            rw [hl]
            simp

/-- C6: detect_columns implements exactly the claimed resolution order —
aliases tried in priority order with case-insensitive header matching
(the first matching alias wins regardless of input-column order), a
fallback for the date role only to the first input column whose every
cell parses as a timestamp, no fallback for the target role, and the
ColumnNotFound failure when either role stays unresolved. -/
theorem c6_detect (df : Df) : detect_columns df = detect_columns_spec df := by
  unfold detect_columns detect_columns_spec
  rw [findCol_eq, findCol_eq]
  cases resolveColumnSpec df DATE_CANDIDATES true <;>
    cases resolveColumnSpec df TARGET_CANDIDATES false <;> rfl

/-! ### C7: data_summary contents -/

/-- C7 (amended): for every successful run, data_summary reports the
length of the CLEAN series (the aggregated, sanitised series the
forecaster was fitted on) as input_rows — not the raw record count — the
inclusive [min, max] range of the clean series as an ISO string pair, and
the seasonal components used. -/
theorem c7_summary (oracle : Oracle) (cfg : PredictionPipeline) (records : List Row)
    (r : PipelineResult) (hr : cfg.run oracle records = .ok r) :
    ∃ clean, cfg.cleanSeries records = .ok clean ∧
      r.data_summary.input_rows = clean.length ∧
      r.data_summary.date_range =
        isoDate (minList (clean.map (·.1))) ++ " to " ++
          isoDate (maxList (clean.map (·.1))) ∧
      r.data_summary.features_used =
        ["trend", "weekly_seasonality", "yearly_seasonality"] := by
  unfold PredictionPipeline.run at hr
  cases hc : cfg.cleanSeries records with
  | error e => rw [hc] at hr; exact absurd hr (by simp)
  | ok clean =>
      rw [hc] at hr
      have hr' : r = cfg.finish oracle clean := by
        injection hr with h
        exact h.symm
      subst hr'
      exact ⟨clean, rfl, rfl, rfl, rfl⟩

/-- C7 (counterexample to the claim as stated): four raw records collapse
to a three-bucket clean series, and the successful response reports
input_rows = 3, not the submitted record count 4. -/
theorem c7_counterexample :
    exCfg.run exOracle exRecs = .ok (exCfg.finish exOracle exClean) ∧
    exRecs.length = 4 ∧
    (exCfg.finish exOracle exClean).data_summary.input_rows = 3 ∧
    (exCfg.finish exOracle exClean).data_summary.input_rows ≠ exRecs.length := by
  refine ⟨by decide, by decide, by decide, by decide⟩

/-- C7 (witness): the amended theorem applied to the concrete run. -/
theorem c7_witness :
    ∃ clean, exCfg.cleanSeries exRecs = .ok clean ∧
      (exCfg.finish exOracle exClean).data_summary.input_rows = clean.length ∧
      (exCfg.finish exOracle exClean).data_summary.date_range =
        isoDate (minList (clean.map (·.1))) ++ " to " ++
          isoDate (maxList (clean.map (·.1))) ∧
      (exCfg.finish exOracle exClean).data_summary.features_used =
        ["trend", "weekly_seasonality", "yearly_seasonality"] :=
  c7_summary exOracle exCfg exRecs (exCfg.finish exOracle exClean) (by decide)


/-! ### Grid facts used to settle C2 and C4

The aggregator always emits a full anchor grid; the following lemmas show
that the sanitiser recognises such a grid (for at least 3 points),
reindexes it onto itself and only clips the values, so the timestamps and
the point count pass through unchanged. -/

theorem foldl_min_eq (l : List Nat) : ∀ a, (∀ y ∈ l, a ≤ y) → l.foldl min a = a := by
  induction l with
  | nil => intro a _; rfl
  | cons y ys ih =>
      intro a h
      have hy : a ≤ y := h y (by simp)
      show ys.foldl min (min a y) = a
      rw [min_eq_left hy]
      exact ih a (fun z hz => h z (by simp [hz]))

theorem foldl_max_eq (l : List Nat) : ∀ a M, (M = a ∨ M ∈ l) → a ≤ M →
    (∀ y ∈ l, y ≤ M) → l.foldl max a = M := by
  induction l with
  | nil =>
      intro a M hM ha _
      rcases hM with h | h
      · simp [h]
      · simp at h
  | cons y ys ih =>
      intro a M hM ha hl
      have hy : y ≤ M := hl y (by simp)
      have hf1 : a ≤ max a y := le_max_left a y
      have hf2 : y ≤ max a y := le_max_right a y
      have hf3 : max a y = a ∨ max a y = y := max_choice a y
      show ys.foldl max (max a y) = M
      apply ih
      · rcases hM with h | h
        · left; omega
        · rcases List.mem_cons.1 h with h | h
          · left; omega
          · right; exact h
      · omega
      · exact fun z hz => hl z (by simp [hz])

theorem wGrid_shape (lo n : Nat) : wGrid lo (n + 1) = lo :: wGrid (lo + 7) n := by
  unfold wGrid
  rw [List.range_succ_eq_map]
  simp only [List.map_cons, List.map_map]
  congr 1
  apply List.map_congr_left
  intro i _
  show lo + 7 * (i + 1) = lo + 7 + 7 * i
  omega

theorem mGrid_shape (a n : Nat) : mGrid a (n + 1) = monthStartOfIdx a :: mGrid (a + 1) n := by
  unfold mGrid
  rw [List.range_succ_eq_map]
  simp only [List.map_cons, List.map_map]
  congr 1
  apply List.map_congr_left
  intro i _
  show monthStartOfIdx (a + (i + 1)) = monthStartOfIdx (a + 1 + i)
  congr 1
  omega

theorem length_wGrid (lo n : Nat) : (wGrid lo n).length = n := by
  simp [wGrid]

theorem length_mGrid (a n : Nat) : (mGrid a n).length = n := by
  simp [mGrid]

theorem mem_wGrid (lo n x : Nat) : x ∈ wGrid lo n ↔ ∃ i, i < n ∧ x = lo + 7 * i := by
  simp [wGrid, List.mem_map, List.mem_range]
  constructor
  · rintro ⟨i, hi, rfl⟩; exact ⟨i, hi, rfl⟩
  · rintro ⟨i, hi, rfl⟩; exact ⟨i, hi, rfl⟩

theorem mem_mGrid (a n x : Nat) : x ∈ mGrid a n ↔ ∃ i, i < n ∧ x = monthStartOfIdx (a + i) := by
  simp [mGrid, List.mem_map, List.mem_range]
  constructor
  · rintro ⟨i, hi, rfl⟩; exact ⟨i, hi, rfl⟩
  · rintro ⟨i, hi, rfl⟩; exact ⟨i, hi, rfl⟩

theorem minList_wGrid (lo n : Nat) (hn : 1 ≤ n) : minList (wGrid lo n) = lo := by
  obtain ⟨m, rfl⟩ : ∃ m, n = m + 1 := ⟨n - 1, by omega⟩
  rw [wGrid_shape]
  show (wGrid (lo + 7) m).foldl min lo = lo
  apply foldl_min_eq
  intro y hy
  rw [mem_wGrid] at hy
  obtain ⟨i, _, rfl⟩ := hy
  omega

theorem maxList_wGrid (lo n : Nat) (hn : 1 ≤ n) : maxList (wGrid lo n) = lo + 7 * (n - 1) := by
  obtain ⟨m, rfl⟩ : ∃ m, n = m + 1 := ⟨n - 1, by omega⟩
  rw [wGrid_shape]
  show (wGrid (lo + 7) m).foldl max lo = lo + 7 * (m + 1 - 1)
  rcases Nat.eq_zero_or_pos m with hm | hm
  · subst hm
    simp [wGrid]
  · apply foldl_max_eq
    · right
      rw [mem_wGrid]
      exact ⟨m - 1, by omega, by omega⟩
    · omega
    · intro y hy
      rw [mem_wGrid] at hy
      obtain ⟨i, hi, rfl⟩ := hy
      omega

theorem monthStartOfIdx_mono {i j : Nat} (h : i ≤ j) :
    monthStartOfIdx i ≤ monthStartOfIdx j :=
  monthStartOfIdx_strictMono.monotone h

theorem minList_mGrid (a n : Nat) (hn : 1 ≤ n) : minList (mGrid a n) = monthStartOfIdx a := by
  obtain ⟨m, rfl⟩ : ∃ m, n = m + 1 := ⟨n - 1, by omega⟩
  rw [mGrid_shape]
  show (mGrid (a + 1) m).foldl min (monthStartOfIdx a) = monthStartOfIdx a
  apply foldl_min_eq
  intro y hy
  rw [mem_mGrid] at hy
  obtain ⟨i, _, rfl⟩ := hy
  exact monthStartOfIdx_mono (by omega)

theorem maxList_mGrid (a n : Nat) (hn : 1 ≤ n) :
    maxList (mGrid a n) = monthStartOfIdx (a + (n - 1)) := by
  obtain ⟨m, rfl⟩ : ∃ m, n = m + 1 := ⟨n - 1, by omega⟩
  rw [mGrid_shape]
  show (mGrid (a + 1) m).foldl max (monthStartOfIdx a) = monthStartOfIdx (a + (m + 1 - 1))
  rcases Nat.eq_zero_or_pos m with hm | hm
  · subst hm
    simp [mGrid]
  · apply foldl_max_eq
    · right
      rw [mem_mGrid]
      exact ⟨m - 1, by omega, by congr 1; omega⟩
    · exact monthStartOfIdx_mono (by omega)
    · intro y hy
      rw [mem_mGrid] at hy
      obtain ⟨i, hi, rfl⟩ := hy
      exact monthStartOfIdx_mono (by omega)

theorem wGrid_nodup (lo n : Nat) : (wGrid lo n).Nodup := by
  apply List.Nodup.map
  · intro i j h
    dsimp only at h
    omega
  · exact List.nodup_range n

theorem mGrid_nodup (a n : Nat) : (mGrid a n).Nodup := by
  apply List.Nodup.map
  · intro i j h
    dsimp only at h
    have := monthStartOfIdx_strictMono.injective h
    omega
  · exact List.nodup_range n

theorem mIdxDown_le (d : Nat) : ∀ k, monthStartOfIdx (mIdxDown d k) ≤ d := by
  intro k
  induction k with
  | zero => simp [mIdxDown, monthStartOfIdx]
  | succ n ih =>
      unfold mIdxDown
      split
      · assumption
      · exact ih

/-- The month start of the month of d never exceeds d. -/
theorem monthStart_mIdx_le (d : Nat) : monthStartOfIdx (monthIdxOfDay d) ≤ d :=
  mIdxDown_le d (d + 1)

/-- Two days 7 apart are never both month starts (months span at least 28
days). -/
theorem not_monthStart_add7 (d : Nat) (h1 : isMonthStart d = true) :
    ¬ (monthIdxOfDay (d + 7) = monthIdxOfDay d + 1) := by
  intro h2
  have hd : monthStartOfIdx (monthIdxOfDay d) = d := by
    have := of_decide_eq_true h1
    exact this
  have hle : monthStartOfIdx (monthIdxOfDay d + 1) ≤ d + 7 := by
    rw [← h2]
    exact monthStart_mIdx_le (d + 7)
  have hge := monthStartOfIdx_succ_ge (monthIdxOfDay d)
  omega

theorem gapsOf_wGrid (n : Nat) : ∀ lo, gapsOf (wGrid lo (n + 1)) = List.replicate n 7 := by
  induction n with
  | zero =>
      intro lo
      rfl
  | succ m ih =>
      intro lo
      rw [wGrid_shape, wGrid_shape]
      show gapsOf (lo :: (lo + 7) :: wGrid (lo + 7 + 7) m) = _
      unfold gapsOf
      rw [← wGrid_shape, ih (lo + 7)]
      have h7 : lo + 7 - lo = 7 := by omega
      rw [h7]
      rfl

theorem consecMS_wGrid_false (lo n : Nat) (hn : 2 ≤ n) : consecMS (wGrid lo n) = false := by
  obtain ⟨m, rfl⟩ : ∃ m, n = m + 2 := ⟨n - 2, by omega⟩
  rw [wGrid_shape, wGrid_shape]
  show consecMS (lo :: (lo + 7) :: wGrid (lo + 7 + 7) m) = false
  unfold consecMS
  cases hms : isMonthStart lo with
  | false => simp
  | true =>
      cases hb : (monthIdxOfDay (lo + 7) == monthIdxOfDay lo + 1) with
      | false => simp
      | true =>
          exfalso
          exact not_monthStart_add7 lo hms (eq_of_beq hb)

theorem replicate_all_eq (k : Nat) : (List.replicate k 7).all (fun x => x == 7) = true := by
  induction k with
  | zero => rfl
  | succ m ih => simp [List.replicate, ih]

theorem inferFreq_wGrid (lo n : Nat) (hn : 3 ≤ n) :
    inferFreq (wGrid lo n) = .ok (some (.stepR 7)) := by
  unfold inferFreq
  rw [if_neg (by rw [length_wGrid]; omega)]
  rw [consecMS_wGrid_false lo n (by omega)]
  rw [if_neg (by simp)]
  obtain ⟨m, rfl⟩ : ∃ m, n = m + 2 := ⟨n - 2, by omega⟩
  have hg : gapsOf (wGrid lo (m + 2)) = 7 :: List.replicate m 7 := by
    rw [gapsOf_wGrid (m + 1) lo]
    rfl
  rw [hg]
  have hcond : 0 < 7 ∧ ((List.replicate m 7).all (fun x => x == 7)) = true :=
    ⟨by omega, replicate_all_eq m⟩
  show (if 0 < 7 ∧ ((List.replicate m 7).all fun x => x == 7) = true
      then Except.ok (some (FreqRule.stepR 7)) else Except.ok none)
      = Except.ok (some (FreqRule.stepR 7))
  rw [if_pos hcond]

theorem consecMS_mGrid (a n : Nat) : consecMS (mGrid a n) = true := by
  induction n generalizing a with
  | zero => rfl
  | succ m ih =>
      rw [mGrid_shape]
      cases m with
      | zero =>
          show consecMS [monthStartOfIdx a] = true
          unfold consecMS
          exact isMonthStart_monthStartOfIdx a
      | succ k =>
          rw [mGrid_shape]
          show consecMS (monthStartOfIdx a :: monthStartOfIdx (a + 1) :: mGrid (a + 1 + 1) k) = true
          unfold consecMS
          rw [← mGrid_shape]
          rw [ih (a + 1)]
          simp [isMonthStart_monthStartOfIdx, monthIdxOfDay_monthStart]

theorem inferFreq_mGrid (a n : Nat) (hn : 3 ≤ n) :
    inferFreq (mGrid a n) = .ok (some .msR) := by
  unfold inferFreq
  rw [if_neg (by rw [length_mGrid]; omega)]
  rw [consecMS_mGrid a n]
  rfl

theorem dateRange_step7 (lo n : Nat) (hn : 1 ≤ n) :
    dateRange (.stepR 7) lo (lo + 7 * (n - 1)) = wGrid lo n := by
  show (if ((7 : Nat) == 0) = true then [lo]
      else (List.range ((lo + 7 * (n - 1) - lo) / 7 + 1)).map (fun i => lo + 7 * i))
      = wGrid lo n
  rw [if_neg (by simp)]
  have h1 : (lo + 7 * (n - 1) - lo) / 7 + 1 = n := by omega
  rw [h1]
  rfl

theorem mIdxUp_monthStart (a : Nat) : mIdxUp (monthStartOfIdx a) = a := by
  unfold mIdxUp
  rw [if_pos (isMonthStart_monthStartOfIdx a)]
  exact monthIdxOfDay_monthStart a

theorem dateRange_ms (a n : Nat) (hn : 1 ≤ n) :
    dateRange .msR (monthStartOfIdx a) (monthStartOfIdx (a + (n - 1))) = mGrid a n := by
  show (if monthIdxOfDay (monthStartOfIdx (a + (n - 1))) + 1 ≤ mIdxUp (monthStartOfIdx a) then []
      else mGrid (mIdxUp (monthStartOfIdx a))
        (monthIdxOfDay (monthStartOfIdx (a + (n - 1))) + 1 - mIdxUp (monthStartOfIdx a)))
      = mGrid a n
  rw [mIdxUp_monthStart, monthIdxOfDay_monthStart]
  rw [if_neg (by omega)]
  have h1 : a + (n - 1) + 1 - a = n := by omega
  rw [h1]

theorem ffillAux_map_some (w : List ℚ) : ∀ last, ffillAux last (w.map some) = w.map some := by
  induction w with
  | nil => intro last; rfl
  | cons y ys ih =>
      intro last
      show some y :: ffillAux (some y) (ys.map some) = some y :: ys.map some
      rw [ih]

theorem bfill_map_some (w : List ℚ) : bfill (w.map some) = w.map some := by
  unfold bfill
  rw [← List.map_reverse, ffillAux_map_some, List.map_reverse, List.reverse_reverse]

theorem clipIQR_length (w : List ℚ) : (clipIQR w).length = w.length := by
  simp [clipIQR]

theorem map_lookupDs_zip (grid : List Nat) : ∀ w : List ℚ, grid.Nodup →
    grid.length = w.length →
    grid.map (fun g => lookupDs (grid.zip w) g) = w.map some := by
  induction grid with
  | nil =>
      intro w _ hlen
      cases w
      · rfl
      · simp at hlen
  | cons g gs ih =>
      intro w hnd hlen
      cases w with
      | nil => simp at hlen
      | cons y ys =>
          simp only [List.zip_cons_cons, List.map_cons]
          congr 1
          · unfold lookupDs
            rw [List.find?_cons_of_pos]
            · rfl
            · show ((g, y).1 == g) = true
              simp
          · have hg : g ∉ gs := (List.nodup_cons.1 hnd).1
            have hcong : ∀ x ∈ gs,
                lookupDs (((g, y) :: gs.zip ys)) x = lookupDs (gs.zip ys) x := by
              intro x hx
              unfold lookupDs
              rw [List.find?_cons_of_neg]
              show ¬ (((g, y).1 == x) = true)
              simp
              intro hgx
              exact hg (hgx ▸ hx)
            rw [List.map_congr_left hcong]
            exact ih ys (List.nodup_cons.1 hnd).2 (by simpa using hlen)

theorem reindexFill_grid (grid : List Nat) (w : List ℚ) (rule : FreqRule)
    (hlen : grid.length = w.length) (hnd : grid.Nodup)
    (hdr : dateRange rule (minList grid) (maxList grid) = grid) :
    reindexFill rule (grid.zip w) = grid.zip (clipIQR w) := by
  unfold reindexFill
  have hfst : (grid.zip w).map (·.1) = grid := List.map_fst_zip grid w (by omega)
  rw [hfst, hdr, map_lookupDs_zip grid w hnd hlen]
  unfold ffill
  rw [ffillAux_map_some, bfill_map_some, List.map_map]
  have hcomp : ((fun (o : Option ℚ) => o.getD 0) ∘ some) = id := by
    funext q
    rfl
  rw [hcomp, List.map_id]

/-- On a weekly anchor grid of at least 3 points the sanitiser keeps the
grid and only clips the values. -/
theorem sanitize_wGrid (lo n : Nat) (w : List ℚ) (h3 : 3 ≤ n) (hw : w.length = n) :
    sanitize_outliers_and_missing ((wGrid lo n).zip w)
      = .ok ((wGrid lo n).zip (clipIQR w)) := by
  unfold sanitize_outliers_and_missing
  have hlz : ((wGrid lo n).zip w).length = n := by
    rw [List.length_zip, length_wGrid]
    omega
  rw [if_neg (by rw [hlz]; omega)]
  have hfst : ((wGrid lo n).zip w).map (·.1) = wGrid lo n :=
    List.map_fst_zip _ _ (by rw [length_wGrid]; omega)
  rw [hfst, inferFreq_wGrid lo n h3]
  show Except.ok (reindexFill (FreqRule.stepR 7) ((wGrid lo n).zip w)) = _
  rw [reindexFill_grid (wGrid lo n) w (.stepR 7)
    (by rw [length_wGrid]; omega) (wGrid_nodup lo n) ?_]
  rw [minList_wGrid lo n (by omega), maxList_wGrid lo n (by omega)]
  exact dateRange_step7 lo n (by omega)

/-- On a month-start anchor grid of at least 3 points the sanitiser keeps
the grid and only clips the values. -/
theorem sanitize_mGrid (a n : Nat) (w : List ℚ) (h3 : 3 ≤ n) (hw : w.length = n) :
    sanitize_outliers_and_missing ((mGrid a n).zip w)
      = .ok ((mGrid a n).zip (clipIQR w)) := by
  unfold sanitize_outliers_and_missing
  have hlz : ((mGrid a n).zip w).length = n := by
    rw [List.length_zip, length_mGrid]
    omega
  rw [if_neg (by rw [hlz]; omega)]
  have hfst : ((mGrid a n).zip w).map (·.1) = mGrid a n :=
    List.map_fst_zip _ _ (by rw [length_mGrid]; omega)
  rw [hfst, inferFreq_mGrid a n h3]
  show Except.ok (reindexFill FreqRule.msR ((mGrid a n).zip w)) = _
  rw [reindexFill_grid (mGrid a n) w .msR
    (by rw [length_mGrid]; omega) (mGrid_nodup a n) ?_]
  rw [minList_mGrid a n (by omega), maxList_mGrid a n (by omega)]
  exact dateRange_ms a n (by omega)

/-- A series shorter than 2 points passes through the sanitiser unchanged. -/
theorem sanitize_short (s : List (Nat × ℚ)) (h : s.length < 2) :
    sanitize_outliers_and_missing s = .ok s := by
  unfold sanitize_outliers_and_missing
  rw [if_pos h]

/-- The sanitiser fails on exactly 2 points: pd.infer_freq needs at least 3
timestamps and raises a ValueError. -/
theorem sanitize_two (s : List (Nat × ℚ)) (h : s.length = 2) :
    sanitize_outliers_and_missing s = .error .freqInferError := by
  unfold sanitize_outliers_and_missing
  rw [if_neg (by omega)]
  have hinf : inferFreq (s.map (·.1)) = .error () := by
    unfold inferFreq
    rw [if_pos (by simp [h])]
  rw [hinf]

theorem map_pair_eq_zip (l : List Nat) (v : Nat → ℚ) :
    l.map (fun g => (g, v g)) = l.zip (l.map v) := by
  induction l with
  | nil => rfl
  | cons x xs ih => simp [ih]

/-- Every successful aggregation output is empty or a full anchor grid
(weekly or month-start) paired with per-bucket values. -/
theorem aggregate_inv (nf : NormedFrame) (level : String) (agg : List (Nat × ℚ))
    (h : aggregate_time_series nf level = .ok agg) :
    agg = [] ∨
    (∃ (lo n : Nat) (v : Nat → ℚ), agg = (wGrid lo n).map (fun g => (g, v g))) ∨
    (∃ (a n : Nat) (v : Nat → ℚ), agg = (mGrid a n).map (fun g => (g, v g))) := by
  unfold aggregate_time_series at h
  split at h
  · exact absurd h (by simp)
  split at h
  · exact absurd h (by simp)
  rcases hp : nf.points with _ | ⟨p, ps⟩
  · rw [hp] at h
    left
    have h' : Except.ok ([] : List (Nat × ℚ)) = Except.ok agg := h
    injection h' with h''
    exact h''.symm
  · rw [hp] at h
    have h' : (if (level == "weekly") = true then
        Except.ok ((wGrid (wlabel (minList ((p :: ps).map (·.1))))
            ((wlabel (maxList ((p :: ps).map (·.1)))
              - wlabel (minList ((p :: ps).map (·.1)))) / 7 + 1)).map
          (fun g => (g, sumAt (p :: ps) wlabel g)))
      else
        Except.ok ((mGrid (monthIdxOfDay (minList ((p :: ps).map (·.1))))
            (monthIdxOfDay (maxList ((p :: ps).map (·.1))) + 1
              - monthIdxOfDay (minList ((p :: ps).map (·.1))))).map
          (fun g => (g, sumAt (p :: ps) mlabel g)))) = Except.ok agg := h
    by_cases hw : (level == "weekly") = true
    · rw [if_pos hw] at h'
      right; left
      refine ⟨wlabel (minList ((p :: ps).map (·.1))),
        (wlabel (maxList ((p :: ps).map (·.1)))
          - wlabel (minList ((p :: ps).map (·.1)))) / 7 + 1,
        fun g => sumAt (p :: ps) wlabel g, ?_⟩
      injection h' with h''
      exact h''.symm
    · rw [if_neg hw] at h'
      right; right
      refine ⟨monthIdxOfDay (minList ((p :: ps).map (·.1))),
        monthIdxOfDay (maxList ((p :: ps).map (·.1))) + 1
          - monthIdxOfDay (minList ((p :: ps).map (·.1))),
        fun g => sumAt (p :: ps) mlabel g, ?_⟩
      injection h' with h''
      exact h''.symm

/-- Every successful aggSeries output came from aggregate_time_series on
some normalised frame. -/
theorem aggSeries_inv (cfg : PredictionPipeline) (records : List Row)
    (agg : List (Nat × ℚ)) (h : cfg.aggSeries records = .ok agg) :
    ∃ nf, aggregate_time_series nf cfg.aggregation_level = .ok agg := by
  unfold PredictionPipeline.aggSeries at h
  split at h
  · exact absurd h (by simp)
  · split at h
    · exact absurd h (by simp)
    · split at h
      · exact absurd h (by simp)
      · exact ⟨_, h⟩

theorem cleanSeries_err_of_sanitize_err (cfg : PredictionPipeline) (records : List Row)
    (agg : List (Nat × ℚ)) (e : PErr)
    (hagg : cfg.aggSeries records = .ok agg)
    (hsan : sanitize_outliers_and_missing agg = .error e) :
    cfg.cleanSeries records = .error e := by
  unfold PredictionPipeline.cleanSeries
  rw [hagg]
  show (match sanitize_outliers_and_missing agg with
    | .error e => Except.error e
    | .ok clean =>
        if clean.length < cfg.min_data_points then Except.error PErr.insufficientData
        else Except.ok clean) = Except.error e
  rw [hsan]

theorem cleanSeries_if_of_sanitize_ok (cfg : PredictionPipeline) (records : List Row)
    (agg clean : List (Nat × ℚ))
    (hagg : cfg.aggSeries records = .ok agg)
    (hsan : sanitize_outliers_and_missing agg = .ok clean) :
    cfg.cleanSeries records =
      (if clean.length < cfg.min_data_points then .error .insufficientData
       else .ok clean) := by
  unfold PredictionPipeline.cleanSeries
  rw [hagg]
  show (match sanitize_outliers_and_missing agg with
    | .error e => Except.error e
    | .ok clean =>
        if clean.length < cfg.min_data_points then Except.error PErr.insufficientData
        else Except.ok clean) =
      (if clean.length < cfg.min_data_points then Except.error PErr.insufficientData
       else Except.ok clean)
  rw [hsan]

/-! ### C2: post-aggregation minimum check -/

/-- C2 (amended): whenever the aggregated bucket count is below the
configured minimum, the run fails before the Forecaster is invoked (run
only calls the Forecaster on a cleanSeries success).  The failure is the
InsufficientData condition in every case except exactly two buckets, where
frequency inference raises first (the dispatcher maps both ValueErrors to
the same 422 insufficient_data response).  In particular 3 raw daily rows
in one weekly bucket with min_data_points = 30 fail with InsufficientData
even though the raw row count is nonzero. -/
theorem c2_min_points (oracle : Oracle) (cfg : PredictionPipeline) (records : List Row)
    (agg : List (Nat × ℚ)) (hagg : cfg.aggSeries records = .ok agg)
    (hlow : agg.length < cfg.min_data_points) :
    (∃ e, cfg.run oracle records = .error e) ∧
    (agg.length ≠ 2 → cfg.run oracle records = .error .insufficientData) := by
  have hrun : ∀ e, cfg.cleanSeries records = .error e →
      cfg.run oracle records = .error e := by
    intro e he
    unfold PredictionPipeline.run
    rw [he]
  have hclean : (agg.length = 2 ∧ cfg.cleanSeries records = .error .freqInferError) ∨
      cfg.cleanSeries records = .error .insufficientData := by
    rcases Nat.lt_or_ge agg.length 2 with h2 | h2
    · right
      rw [cleanSeries_if_of_sanitize_ok cfg records agg agg hagg (sanitize_short agg h2)]
      rw [if_pos hlow]
    · rcases Nat.eq_or_lt_of_le h2 with h2e | h3
      · left
        exact ⟨h2e.symm,
          cleanSeries_err_of_sanitize_err cfg records agg _ hagg (sanitize_two agg h2e.symm)⟩
      · right
        obtain ⟨nf, haggr⟩ := aggSeries_inv cfg records agg hagg
        rcases aggregate_inv nf cfg.aggregation_level agg haggr with hsh | hsh | hsh
        · rw [hsh] at h3
          simp at h3
        · obtain ⟨lo, n, v, hsh⟩ := hsh
          have hlen : agg.length = n := by rw [hsh]; simp [length_wGrid]
          have hn3 : 3 ≤ n := by omega
          have hsan : sanitize_outliers_and_missing agg
              = .ok ((wGrid lo n).zip (clipIQR ((wGrid lo n).map v))) := by
            rw [hsh, map_pair_eq_zip]
            exact sanitize_wGrid lo n _ hn3 (by simp [length_wGrid])
          have hcleanlen : ((wGrid lo n).zip (clipIQR ((wGrid lo n).map v))).length = n := by
            rw [List.length_zip, clipIQR_length]
            simp [length_wGrid]
          rw [cleanSeries_if_of_sanitize_ok cfg records agg _ hagg hsan]
          rw [if_pos (by rw [hcleanlen]; omega)]
        · obtain ⟨a, n, v, hsh⟩ := hsh
          have hlen : agg.length = n := by rw [hsh]; simp [length_mGrid]
          have hn3 : 3 ≤ n := by omega
          have hsan : sanitize_outliers_and_missing agg
              = .ok ((mGrid a n).zip (clipIQR ((mGrid a n).map v))) := by
            rw [hsh, map_pair_eq_zip]
            exact sanitize_mGrid a n _ hn3 (by simp [length_mGrid])
          have hcleanlen : ((mGrid a n).zip (clipIQR ((mGrid a n).map v))).length = n := by
            rw [List.length_zip, clipIQR_length]
            simp [length_mGrid]
          rw [cleanSeries_if_of_sanitize_ok cfg records agg _ hagg hsan]
          rw [if_pos (by rw [hcleanlen]; omega)]
  rcases hclean with ⟨h2, herr⟩ | herr
  · exact ⟨⟨.freqInferError, hrun _ herr⟩, fun hne => absurd h2 hne⟩
  · exact ⟨⟨.insufficientData, hrun _ herr⟩, fun _ => hrun _ herr⟩

/-- C2 (counterexample to the claim as stated): two raw records on
consecutive Mondays aggregate to exactly 2 buckets, far below
min_data_points = 30, yet the run fails with the frequency-inference
ValueError, not the InsufficientData condition. -/
theorem c2_counterexample :
    exCfg30.aggSeries exRecs2 = .ok [(0, 5), (7, 7)] ∧
    ([(0, 5), (7, 7)] : List (Nat × ℚ)).length < 30 ∧
    exCfg30.run exOracle exRecs2 = .error .freqInferError ∧
    PErr.freqInferError ≠ PErr.insufficientData := by
  refine ⟨by with_unfolding_all rfl, by decide, by with_unfolding_all rfl, by decide⟩

/-- C2 (witness): the amended theorem applied to 3 raw daily rows that
aggregate to a single weekly bucket under min_data_points = 30: the run
fails with InsufficientData. -/
theorem c2_witness :
    exCfg30.run exOracle exRecs3daily = .error .insufficientData := by
  obtain ⟨_, h2⟩ := c2_min_points exOracle exCfg30 exRecs3daily [(7, 18)]
    (by with_unfolding_all rfl) (by decide)
  exact h2 (by decide)

/-! ### C4: sanitiser idempotence -/

/-- C4 (amended): on aggregator-shaped series (weekly or month-start
anchor grids, at least 3 points) the sanitiser preserves the time grid
and the point count, and re-running it on its own output preserves them
again — gap-filling introduces no new gaps under re-application; a series
shorter than 2 points passes through unchanged.  Full idempotence fails:
re-applying the IQR clip can move values (see the counterexample). -/
theorem c4_sanitize_grid (lo a n : Nat) (w : List ℚ) (h3 : 3 ≤ n) (hw : w.length = n) :
    (sanitize_outliers_and_missing ((wGrid lo n).zip w)
        = .ok ((wGrid lo n).zip (clipIQR w)) ∧
      (clipIQR w).length = n ∧
      sanitize_outliers_and_missing ((wGrid lo n).zip (clipIQR w))
        = .ok ((wGrid lo n).zip (clipIQR (clipIQR w)))) ∧
    (sanitize_outliers_and_missing ((mGrid a n).zip w)
        = .ok ((mGrid a n).zip (clipIQR w)) ∧
      sanitize_outliers_and_missing ((mGrid a n).zip (clipIQR w))
        = .ok ((mGrid a n).zip (clipIQR (clipIQR w)))) ∧
    (∀ s : List (Nat × ℚ), s.length < 2 → sanitize_outliers_and_missing s = .ok s) := by
  have hcl : (clipIQR w).length = n := by rw [clipIQR_length, hw]
  exact ⟨⟨sanitize_wGrid lo n w h3 hw, hcl, sanitize_wGrid lo n (clipIQR w) h3 hcl⟩,
    ⟨sanitize_mGrid a n w h3 hw, sanitize_mGrid a n (clipIQR w) h3 hcl⟩,
    fun s hs => sanitize_short s hs⟩

/-- C4 (counterexample to the claim as stated): on the 4-bucket weekly
series with values [0, 100, 100, 100] the first sanitiser pass clips 0 up
to 37.5, and a second pass clips 37.5 up to 60.9375 — sanitising the
sanitiser output changes a value, so the Sanitizer is not idempotent. -/
theorem c4_counterexample :
    sanitize_outliers_and_missing exS4 = .ok exS4Clip ∧
    sanitize_outliers_and_missing exS4Clip = .ok exS4Clip2 ∧
    exS4Clip2 ≠ exS4Clip := by
  refine ⟨by with_unfolding_all rfl, by with_unfolding_all rfl, by with_unfolding_all decide⟩

/-- C4 (witness): the amended theorem applied to the counterexample
series: the grid survives both passes even though the values move. -/
theorem c4_witness :
    sanitize_outliers_and_missing ((wGrid 0 4).zip [0, 100, 100, 100])
      = .ok ((wGrid 0 4).zip (clipIQR [0, 100, 100, 100])) ∧
    sanitize_outliers_and_missing ((wGrid 0 4).zip (clipIQR [0, 100, 100, 100]))
      = .ok ((wGrid 0 4).zip (clipIQR (clipIQR [0, 100, 100, 100]))) := by
  have h := c4_sanitize_grid 0 0 4 [0, 100, 100, 100] (by omega) (by decide)
  exact ⟨h.1.1, h.1.2.2⟩

/-! ### C9: independence from the requested feature columns -/

theorem normalize_key (df : Df) (m : Detected) (fc : List String)
    (hm : (m.date == m.target) = true) :
    normalize_schema df m fc = .error .keyCollision := by
  unfold normalize_schema
  rw [if_pos hm]

theorem keptOf_contains_false (df : Df) (m : Detected) (fc : List String) (x : String)
    (hx : x ∉ fc) : (keptOf df m fc).contains x = false := by
  cases hc : (keptOf df m fc).contains x with
  | false => rfl
  | true =>
      exfalso
      have hmem : x ∈ keptOf df m fc := List.elem_iff.1 hc
      exact hx (List.mem_filter.1 hmem).1

theorem normalize_ok (df : Df) (m : Detected) (fc : List String)
    (hm : (m.date == m.target) = false) (hds : "ds" ∉ fc) :
    normalize_schema df m fc = .ok ⟨normPoints df m, keptOf df m fc⟩ := by
  unfold normalize_schema
  rw [hm]
  rw [if_neg (by simp)]
  rw [keptOf_contains_false df m fc "ds" hds]
  rw [if_neg (by simp)]

/-- The aggregation result only reads the points and whether "y" was
retained; two frames with the same points and no retained "y" aggregate
identically. -/
theorem aggregate_kept_irrel (pts : List (Nat × ℚ)) (kept1 kept2 : List String)
    (level : String) (h1 : kept1.contains "y" = false) (h2 : kept2.contains "y" = false) :
    aggregate_time_series ⟨pts, kept1⟩ level = aggregate_time_series ⟨pts, kept2⟩ level := by
  by_cases hl : (level != "weekly" && level != "monthly") = true
  · unfold aggregate_time_series
    rw [if_pos hl, if_pos hl]
  · unfold aggregate_time_series
    rw [if_neg hl, if_neg hl]
    have e1 : (({ points := pts, kept := kept1 } : NormedFrame).kept.contains "y") = false := h1
    have e2 : (({ points := pts, kept := kept2 } : NormedFrame).kept.contains "y") = false := h2
    rw [e1, e2]

theorem finish_feature_indep (f l : String) (p : Nat) (fc1 fc2 : List String)
    (rc : Bool) (mp : Nat) (nn : Bool) (oracle : Oracle) (clean : List (Nat × ℚ)) :
    PredictionPipeline.finish ⟨f, l, p, fc1, rc, mp, nn⟩ oracle clean =
    PredictionPipeline.finish ⟨f, l, p, fc2, rc, mp, nn⟩ oracle clean := rfl

/-- C9 (amended): the forecast output is independent of the requested
feature columns as long as neither list names the canonical columns ds or
y: the aggregator sums only the y column and discards every retained
passthrough column, so two runs differing only in feature_columns produce
identical results (predictions, model_info and data_summary alike).
Requesting "y" (or "ds") breaks the claim as originally stated: the
duplicated column label crashes the pandas pipeline (see the
counterexample). -/
theorem c9_feature_independence (oracle : Oracle) (cfg1 cfg2 : PredictionPipeline)
    (records : List Row)
    (hfreq : cfg1.prediction_frequency = cfg2.prediction_frequency)
    (hlev : cfg1.aggregation_level = cfg2.aggregation_level)
    (hper : cfg1.prediction_period = cfg2.prediction_period)
    (hconf : cfg1.return_confidence = cfg2.return_confidence)
    (hmin : cfg1.min_data_points = cfg2.min_data_points)
    (hnn : cfg1.non_negative = cfg2.non_negative)
    (h1d : "ds" ∉ cfg1.feature_columns) (h1y : "y" ∉ cfg1.feature_columns)
    (h2d : "ds" ∉ cfg2.feature_columns) (h2y : "y" ∉ cfg2.feature_columns) :
    cfg1.run oracle records = cfg2.run oracle records := by
  obtain ⟨f1, l1, p1, fc1, rc1, mp1, n1⟩ := cfg1
  obtain ⟨f1, l1, p1, fc2, rc1, mp1, n1⟩ := cfg2
  simp only at hfreq hlev hper hconf hmin hnn h1d h1y h2d h2y
  subst hfreq hlev hper hconf hmin hnn
  have hagg : PredictionPipeline.aggSeries ⟨f1, l1, p1, fc1, rc1, mp1, n1⟩ records
      = PredictionPipeline.aggSeries ⟨f1, l1, p1, fc2, rc1, mp1, n1⟩ records := by
    unfold PredictionPipeline.aggSeries
    by_cases he : ((mkDf records).rows.isEmpty || (mkDf records).cols.isEmpty) = true
    · rw [if_pos he, if_pos he]
    · rw [if_neg he, if_neg he]
      cases hd : detect_columns (mkDf records) with
      | error e => rfl
      | ok m =>
          show (match normalize_schema (mkDf records) m fc1 with
            | .error e => Except.error e
            | .ok nf => aggregate_time_series nf l1) =
            (match normalize_schema (mkDf records) m fc2 with
            | .error e => Except.error e
            | .ok nf => aggregate_time_series nf l1)
          by_cases hm : (m.date == m.target) = true
          · rw [normalize_key (mkDf records) m fc1 hm,
              normalize_key (mkDf records) m fc2 hm]
          · rw [normalize_ok (mkDf records) m fc1 (by simpa using hm) h1d,
              normalize_ok (mkDf records) m fc2 (by simpa using hm) h2d]
            show aggregate_time_series ⟨normPoints (mkDf records) m, keptOf (mkDf records) m fc1⟩ l1
              = aggregate_time_series ⟨normPoints (mkDf records) m, keptOf (mkDf records) m fc2⟩ l1
            exact aggregate_kept_irrel _ _ _ _
              (keptOf_contains_false (mkDf records) m fc1 "y" h1y)
              (keptOf_contains_false (mkDf records) m fc2 "y" h2y)
  have hclean : PredictionPipeline.cleanSeries ⟨f1, l1, p1, fc1, rc1, mp1, n1⟩ records
      = PredictionPipeline.cleanSeries ⟨f1, l1, p1, fc2, rc1, mp1, n1⟩ records := by
    unfold PredictionPipeline.cleanSeries
    rw [hagg]
  unfold PredictionPipeline.run
  rw [hclean]
  cases hc : PredictionPipeline.cleanSeries ⟨f1, l1, p1, fc2, rc1, mp1, n1⟩ records with
  | error e => rfl
  | ok clean =>
      show Except.ok (PredictionPipeline.finish ⟨f1, l1, p1, fc1, rc1, mp1, n1⟩ oracle clean)
        = Except.ok (PredictionPipeline.finish ⟨f1, l1, p1, fc2, rc1, mp1, n1⟩ oracle clean)
      rw [finish_feature_indep f1 l1 p1 fc1 fc2 rc1 mp1 n1 oracle clean]

/-- C9 (counterexample to the claim as stated): the same records run with
feature_columns = [] succeed, but with feature_columns = ["y"] the
duplicated y label makes the aggregation step raise, so the outputs are
not identical for every pair of feature lists. -/
theorem c9_counterexample :
    (build_pipeline "weekly" "weekly" 2 (some []) false 3).run exOracle exRecs
      = .ok (exCfg.finish exOracle exClean) ∧
    (build_pipeline "weekly" "weekly" 2 (some ["y"]) false 3).run exOracle exRecs
      = .error .dupLabel ∧
    (Except.error PErr.dupLabel : Except PErr PipelineResult)
      ≠ .ok (exCfg.finish exOracle exClean) := by
  refine ⟨by with_unfolding_all rfl, by with_unfolding_all rfl, by simp⟩

/-- C9 (witness): the amended theorem applied to the feature lists
["promo"] and []: identical run results. -/
theorem c9_witness :
    (build_pipeline "weekly" "weekly" 2 (some ["promo"]) false 3).run exOracle exRecs
      = (build_pipeline "weekly" "weekly" 2 (some []) false 3).run exOracle exRecs :=
  c9_feature_independence exOracle _ _ exRecs rfl rfl rfl rfl rfl rfl
    (by decide) (by decide) (by decide) (by decide)
